import Mathlib

/-!
Shallow embedding of the `event` module of this repository
(`src/src/event.rs`): the `EventHandler` trait, the event-translator
`match`, and the `run` main loop, together with theorems about their
dispatch, error-propagation and termination behaviour.

The handler is modelled as an oracle (`Handler`): the result of the n-th
`quit_event` call and the `update`/`draw` results per loop iteration are
given as functions, and every handler callback that the loop performs is
recorded in an observable trace (`Call`).  The event pump is modelled as a
function from the iteration index to the finite list of events drained on
that iteration.  Since the loop may run forever, the loop is interpreted
with fuel: `none` means the loop was still running after `fuel` iterations.
-/

namespace Ggez

/-- A key code (`sdl2::keyboard::Keycode`).  Only the escape sentinel is
distinguished by the loop (`key == keyboard::Keycode::Escape` in
`event.rs`); every other keycode is opaque. -/
inductive Keycode
  | escape
  | other (code : Nat)
  deriving DecidableEq

/-- One raw SDL event, as matched by the translator in `run`.  Payload
fields keep the source types (i32 becomes Int, opaque ids and enums become
Nat).  The three `Window { win_event: ... }` patterns matched by `run`
appear as dedicated constructors; every raw variant reaching the
`_ => {}` arm (including other window events) is `other`. -/
inductive Event
  | quit
  | keyDown (keycode : Option Keycode) (keymod : Nat) (rpt : Bool)
  | keyUp (keycode : Option Keycode) (keymod : Nat) (rpt : Bool)
  | mouseButtonDown (mouse_btn : Nat) (x y : Int)
  | mouseButtonUp (mouse_btn : Nat) (x y : Int)
  | mouseMotion (mousestate : Nat) (x y xrel yrel : Int)
  | mouseWheel (x y : Int)
  | controllerButtonDown (button : Nat) (which : Int)
  | controllerButtonUp (button : Nat) (which : Int)
  | controllerAxisMotion (axis : Nat) (value : Int) (which : Int)
  | windowFocusGained
  | windowFocusLost
  | windowResized (w h : Int)
  | other
  deriving DecidableEq

/-- One observable action of the loop: a handler callback (named after the
`EventHandler` method it invokes), or the clock `tick`, or the `update` /
`draw` calls of an iteration. -/
inductive Call
  | tick
  | quit_event
  | key_down_event (keycode : Keycode) (keymod : Nat) (rpt : Bool)
  | key_up_event (keycode : Keycode) (keymod : Nat) (rpt : Bool)
  | mouse_button_down_event (mouse_btn : Nat) (x y : Int)
  | mouse_button_up_event (mouse_btn : Nat) (x y : Int)
  | mouse_motion_event (mousestate : Nat) (x y xrel yrel : Int)
  | mouse_wheel_event (x y : Int)
  | controller_button_down_event (button : Nat) (which : Int)
  | controller_button_up_event (button : Nat) (which : Int)
  | controller_axis_event (axis : Nat) (value : Int) (which : Int)
  | focus_event (gained : Bool)
  | resize_event (width height : Nat)
  | update
  | draw
  deriving DecidableEq

/-- The loop-local state of `run`: the `continuing` flag, the number of
`quit_event` calls made so far (to index the oracle), the number of
completed iterations (to index the per-iteration oracles and drains), and
the trace of calls performed so far. -/
structure RunState where
  continuing : Bool
  quitCalls : Nat
  iter : Nat
  trace : List Call

/-- The state on entry to the loop: `let mut continuing = true;`, nothing
called yet. -/
def initState : RunState :=
  { continuing := true, quitCalls := 0, iter := 0, trace := [] }

/-- Record one observable call in the trace. -/
def addCall (s : RunState) (c : Call) : RunState :=
  { s with trace := s.trace ++ [c] }

/-- Modelled from the spec: `Context::quit` (called as `ctx.quit()?` on the
escape key) is not under `src/`.  Per the spec, the escape special case
signals the RunContext to terminate: it "sets the continuation flag to
false but does not short-circuit the remainder of the current iteration's
update/draw", and it bypasses `quit_event`.  It is modelled as infallible
(the `?` never propagates an error). -/
def ctxQuit (s : RunState) : RunState :=
  { s with continuing := false }

/-- The `w as u32` cast applied to the `Resized(w, h)` payload: an i32
reinterpreted as a u32, i.e. the value modulo 2^32. -/
def u32ofInt (w : Int) : Nat :=
  (w % (2 ^ 32 : Int)).toNat

/-- The event-translator `match` in `run`, one arm per pattern of the
source.  `qres` is the oracle for `quit_event` results, indexed by how many
`quit_event` calls were made before. -/
def dispatch (qres : Nat → Bool) (s : RunState) (e : Event) : RunState :=
  match e with
  | Event.quit =>
      { s with continuing := qres s.quitCalls,
               quitCalls := s.quitCalls + 1,
               trace := s.trace ++ [Call.quit_event] }
  | Event.keyDown keycode keymod rpt =>
      match keycode with
      | some key =>
          if key = Keycode.escape then
            ctxQuit s
          else
            addCall s (Call.key_down_event key keymod rpt)
      | none => s
  | Event.keyUp keycode keymod rpt =>
      match keycode with
      | some key => addCall s (Call.key_up_event key keymod rpt)
      | none => s
  | Event.mouseButtonDown b x y => addCall s (Call.mouse_button_down_event b x y)
  | Event.mouseButtonUp b x y => addCall s (Call.mouse_button_up_event b x y)
  | Event.mouseMotion st x y xr yr => addCall s (Call.mouse_motion_event st x y xr yr)
  | Event.mouseWheel x y => addCall s (Call.mouse_wheel_event x y)
  | Event.controllerButtonDown b w => addCall s (Call.controller_button_down_event b w)
  | Event.controllerButtonUp b w => addCall s (Call.controller_button_up_event b w)
  | Event.controllerAxisMotion a v w => addCall s (Call.controller_axis_event a v w)
  | Event.windowFocusGained => addCall s (Call.focus_event true)
  | Event.windowFocusLost => addCall s (Call.focus_event false)
  | Event.windowResized w h => addCall s (Call.resize_event (u32ofInt w) (u32ofInt h))
  | Event.other => s

/-- The `for event in event_pump.poll_iter()` loop: fold the translator
over the drained events in order. -/
def processEvents (qres : Nat → Bool) (s : RunState) (evs : List Event) : RunState :=
  evs.foldl (dispatch qres) s

/-- The `EventHandler` oracle: the result of the n-th `quit_event` call,
and the `update` / `draw` results on iteration k.  `E` is the error type of
`GameResult`. -/
structure Handler (E : Type) where
  quitEventResult : Nat → Bool
  updateResult : Nat → Except E Unit
  drawResult : Nat → Except E Unit

/-- One iteration of the `while continuing` body: tick the clock, drain and
translate all events, then call `update` (propagating its error before
`draw` is called) and `draw` (propagating its error).  Returns the state
after the iteration and `some e` when `?` propagated the error `e`. -/
def runIteration (h : Handler E) (events : Nat → List Event) (s : RunState) :
    RunState × Option E :=
  let s1 := processEvents h.quitEventResult (addCall s Call.tick) (events s.iter)
  let s2 := addCall s1 Call.update
  match h.updateResult s.iter with
  | Except.error e => (s2, some e)
  | Except.ok _ =>
      let s3 := addCall s2 Call.draw
      match h.drawResult s.iter with
      | Except.error e => (s3, some e)
      | Except.ok _ => ({ s3 with iter := s.iter + 1 }, none)

/-- The `while continuing` loop, run with fuel: `none` means the loop was
still continuing after `fuel` iterations; `some (s, none)` is normal exit
(the flag was found false); `some (s, some e)` is exit by error
propagation from `update` or `draw`. -/
def runLoop (h : Handler E) (events : Nat → List Event) (fuel : Nat) (s : RunState) :
    Option (RunState × Option E) :=
  if s.continuing then
    match fuel with
    | 0 => none
    | Nat.succ f =>
        match runIteration h events s with
        | (s2, some e) => some (s2, some e)
        | (s2, none) => runLoop h events f s2
  else
    some (s, none)

/-- `event::run`: acquire the event pump (`ctx.sdl_context.event_pump()?`);
on failure return that error at once with an empty trace; otherwise run the
loop from the initial state and return `Ok(())` on normal exit or the
propagated handler error.  The result pairs the trace of calls with the
`GameResult`. -/
def run (pumpResult : Except E Unit) (h : Handler E) (events : Nat → List Event)
    (fuel : Nat) : Option (List Call × Except E Unit) :=
  match pumpResult with
  | Except.error e => some ([], Except.error e)
  | Except.ok _ =>
      match runLoop h events fuel initState with
      | none => none
      | some (s, some e) => some (s.trace, Except.error e)
      | some (s, none) => some (s.trace, Except.ok ())

/-- The callback an event is translated to, read off the translator arms:
`none` exactly for the events that invoke no handler callback (the escape
`KeyDown` special case, key events with no keycode, and the `_ => {}`
catch-all).  For `quit` the callback is `quit_event`. -/
def callOf : Event → Option Call
  | Event.quit => some Call.quit_event
  | Event.keyDown keycode keymod rpt =>
      match keycode with
      | some key =>
          if key = Keycode.escape then none
          else some (Call.key_down_event key keymod rpt)
      | none => none
  | Event.keyUp keycode keymod rpt =>
      match keycode with
      | some key => some (Call.key_up_event key keymod rpt)
      | none => none
  | Event.mouseButtonDown b x y => some (Call.mouse_button_down_event b x y)
  | Event.mouseButtonUp b x y => some (Call.mouse_button_up_event b x y)
  | Event.mouseMotion st x y xr yr => some (Call.mouse_motion_event st x y xr yr)
  | Event.mouseWheel x y => some (Call.mouse_wheel_event x y)
  | Event.controllerButtonDown b w => some (Call.controller_button_down_event b w)
  | Event.controllerButtonUp b w => some (Call.controller_button_up_event b w)
  | Event.controllerAxisMotion a v w => some (Call.controller_axis_event a v w)
  | Event.windowFocusGained => some (Call.focus_event true)
  | Event.windowFocusLost => some (Call.focus_event false)
  | Event.windowResized w h => some (Call.resize_event (u32ofInt w) (u32ofInt h))
  | Event.other => none

/-- Number of `Quit` events in a drain. -/
def quitCount : List Event → Nat
  | [] => 0
  | e :: t => (if e = Event.quit then 1 else 0) + quitCount t

/-- Whether an event is a `KeyDown` carrying the escape sentinel. -/
def isEscapeDown : Event → Bool
  | Event.keyDown (some Keycode.escape) _ _ => true
  | _ => false

/-- Whether an event is silently discarded by the translator (no handler
callback): the catch-all bucket, key events with no keycode, and the escape
`KeyDown` special case. -/
def discarded : Event → Bool
  | Event.other => true
  | Event.keyDown none _ _ => true
  | Event.keyUp none _ _ => true
  | Event.keyDown (some Keycode.escape) _ _ => true
  | _ => false

/-- Whether a call is an event-translator callback (as opposed to the
clock tick or the per-iteration `update` / `draw` calls). -/
def isEventCallback : Call → Bool
  | Call.tick => false
  | Call.update => false
  | Call.draw => false
  | _ => true

/-- Whether a call is `key_down_event` with the escape sentinel. -/
def isEscapeDownCall : Call → Bool
  | Call.key_down_event Keycode.escape _ _ => true
  | _ => false

/-! ### Per-event facts about the translator -/

theorem dispatch_trace (qres : Nat → Bool) (s : RunState) (e : Event) :
    (dispatch qres s e).trace = s.trace ++ (callOf e).toList := by
  cases e with
  | quit => rfl
  | keyDown kc km r =>
      cases kc with
      | none => simp [dispatch, callOf]
      | some key =>
          by_cases hk : key = Keycode.escape
          · simp [dispatch, callOf, hk, ctxQuit]
          · simp [dispatch, callOf, hk, addCall]
  | keyUp kc km r =>
      cases kc with
      | none => simp [dispatch, callOf]
      | some key => rfl
  | mouseButtonDown b x y => rfl
  | mouseButtonUp b x y => rfl
  | mouseMotion st x y xr yr => rfl
  | mouseWheel x y => rfl
  | controllerButtonDown b w => rfl
  | controllerButtonUp b w => rfl
  | controllerAxisMotion a v w => rfl
  | windowFocusGained => rfl
  | windowFocusLost => rfl
  | windowResized w h => rfl
  | other => simp [dispatch, callOf]

theorem dispatch_iter (qres : Nat → Bool) (s : RunState) (e : Event) :
    (dispatch qres s e).iter = s.iter := by
  cases e with
  | quit => rfl
  | keyDown kc km r =>
      cases kc with
      | none => rfl
      | some key =>
          by_cases hk : key = Keycode.escape
          · simp [dispatch, hk, ctxQuit]
          · simp [dispatch, hk, addCall]
  | keyUp kc km r => cases kc with
      | none => rfl
      | some key => rfl
  | mouseButtonDown b x y => rfl
  | mouseButtonUp b x y => rfl
  | mouseMotion st x y xr yr => rfl
  | mouseWheel x y => rfl
  | controllerButtonDown b w => rfl
  | controllerButtonUp b w => rfl
  | controllerAxisMotion a v w => rfl
  | windowFocusGained => rfl
  | windowFocusLost => rfl
  | windowResized w h => rfl
  | other => rfl

theorem dispatch_quitCalls (qres : Nat → Bool) (s : RunState) (e : Event) :
    (dispatch qres s e).quitCalls =
      s.quitCalls + (if e = Event.quit then 1 else 0) := by
  cases e with
  | quit => rfl
  | keyDown kc km r =>
      cases kc with
      | none => simp [dispatch]
      | some key =>
          by_cases hk : key = Keycode.escape
          · simp [dispatch, hk, ctxQuit]
          · simp [dispatch, hk, addCall]
  | keyUp kc km r => cases kc with
      | none => simp [dispatch]
      | some key => simp [dispatch, addCall]
  | mouseButtonDown b x y => simp [dispatch, addCall]
  | mouseButtonUp b x y => simp [dispatch, addCall]
  | mouseMotion st x y xr yr => simp [dispatch, addCall]
  | mouseWheel x y => simp [dispatch, addCall]
  | controllerButtonDown b w => simp [dispatch, addCall]
  | controllerButtonUp b w => simp [dispatch, addCall]
  | controllerAxisMotion a v w => simp [dispatch, addCall]
  | windowFocusGained => simp [dispatch, addCall]
  | windowFocusLost => simp [dispatch, addCall]
  | windowResized w h => simp [dispatch, addCall]
  | other => simp [dispatch]

theorem dispatch_continuing_of_simple (qres : Nat → Bool) (s : RunState) (e : Event)
    (hq : e ≠ Event.quit) (he : isEscapeDown e = false) :
    (dispatch qres s e).continuing = s.continuing := by
  cases e with
  | quit => exact absurd rfl hq
  | keyDown kc km r =>
      cases kc with
      | none => rfl
      | some key =>
          cases key with
          | escape => simp [isEscapeDown] at he
          | other n => simp [dispatch, addCall]
  | keyUp kc km r => cases kc with
      | none => rfl
      | some key => rfl
  | mouseButtonDown b x y => rfl
  | mouseButtonUp b x y => rfl
  | mouseMotion st x y xr yr => rfl
  | mouseWheel x y => rfl
  | controllerButtonDown b w => rfl
  | controllerButtonUp b w => rfl
  | controllerAxisMotion a v w => rfl
  | windowFocusGained => rfl
  | windowFocusLost => rfl
  | windowResized w h => rfl
  | other => rfl

theorem dispatch_continuing_of_ne_quit_false (qres : Nat → Bool) (s : RunState)
    (e : Event) (hq : e ≠ Event.quit) (hc : s.continuing = false) :
    (dispatch qres s e).continuing = false := by
  cases e with
  | quit => exact absurd rfl hq
  | keyDown kc km r =>
      cases kc with
      | none => exact hc
      | some key =>
          by_cases hk : key = Keycode.escape
          · simp [dispatch, hk, ctxQuit]
          · simpa [dispatch, hk, addCall] using hc
  | keyUp kc km r => cases kc with
      | none => exact hc
      | some key => exact hc
  | mouseButtonDown b x y => exact hc
  | mouseButtonUp b x y => exact hc
  | mouseMotion st x y xr yr => exact hc
  | mouseWheel x y => exact hc
  | controllerButtonDown b w => exact hc
  | controllerButtonUp b w => exact hc
  | controllerAxisMotion a v w => exact hc
  | windowFocusGained => exact hc
  | windowFocusLost => exact hc
  | windowResized w h => exact hc
  | other => exact hc

theorem dispatch_continuing_of_qfalse (qres : Nat → Bool) (s : RunState) (e : Event)
    (hq : ∀ n, qres n = false) (hc : s.continuing = false) :
    (dispatch qres s e).continuing = false := by
  by_cases he : e = Event.quit
  · subst he; simp [dispatch, hq]
  · exact dispatch_continuing_of_ne_quit_false qres s e he hc

theorem dispatch_continuing_of_qtrue (qres : Nat → Bool) (s : RunState) (e : Event)
    (hq : ∀ n, qres n = true) (he : isEscapeDown e = false)
    (hc : s.continuing = true) :
    (dispatch qres s e).continuing = true := by
  by_cases hqe : e = Event.quit
  · subst hqe; simp [dispatch, hq]
  · rw [dispatch_continuing_of_simple qres s e hqe he]; exact hc

theorem callOf_not_escape_down (e : Event) (c : Call) (h : callOf e = some c) :
    isEscapeDownCall c = false := by
  cases e with
  | quit => simp [callOf] at h; subst h; rfl
  | keyDown kc km r =>
      cases kc with
      | none => simp [callOf] at h
      | some key =>
          cases key with
          | escape => simp [callOf] at h
          | other n => simp [callOf] at h; subst h; rfl
  | keyUp kc km r =>
      cases kc with
      | none => simp [callOf] at h
      | some key => simp [callOf] at h; subst h; cases key <;> rfl
  | mouseButtonDown b x y => simp [callOf] at h; subst h; rfl
  | mouseButtonUp b x y => simp [callOf] at h; subst h; rfl
  | mouseMotion st x y xr yr => simp [callOf] at h; subst h; rfl
  | mouseWheel x y => simp [callOf] at h; subst h; rfl
  | controllerButtonDown b w => simp [callOf] at h; subst h; rfl
  | controllerButtonUp b w => simp [callOf] at h; subst h; rfl
  | controllerAxisMotion a v w => simp [callOf] at h; subst h; rfl
  | windowFocusGained => simp [callOf] at h; subst h; rfl
  | windowFocusLost => simp [callOf] at h; subst h; rfl
  | windowResized w h2 => simp [callOf] at h; subst h; rfl
  | other => simp [callOf] at h

theorem callOf_isSome_not_escape (e : Event) (h : (callOf e).isSome = true) :
    isEscapeDown e = false := by
  cases e with
  | keyDown kc km r =>
      cases kc with
      | none => rfl
      | some key =>
          cases key with
          | escape => simp [callOf] at h
          | other n => rfl
  | quit => rfl
  | keyUp kc km r => cases kc <;> rfl
  | mouseButtonDown b x y => rfl
  | mouseButtonUp b x y => rfl
  | mouseMotion st x y xr yr => rfl
  | mouseWheel x y => rfl
  | controllerButtonDown b w => rfl
  | controllerButtonUp b w => rfl
  | controllerAxisMotion a v w => rfl
  | windowFocusGained => rfl
  | windowFocusLost => rfl
  | windowResized w h2 => rfl
  | other => rfl

/-! ### Facts about a whole drain -/

theorem processEvents_cons (qres : Nat → Bool) (s : RunState) (e : Event)
    (t : List Event) :
    processEvents qres s (e :: t) = processEvents qres (dispatch qres s e) t := rfl

theorem processEvents_trace (qres : Nat → Bool) (evs : List Event) :
    ∀ s : RunState,
      (processEvents qres s evs).trace = s.trace ++ evs.filterMap callOf := by
  induction evs with
  | nil => intro s; simp [processEvents]
  | cons e t ih =>
      intro s
      rw [processEvents_cons, ih, dispatch_trace]
      cases hco : callOf e with
      | none => simp [List.filterMap_cons_none hco]
      | some c => simp [List.filterMap_cons_some hco]

theorem processEvents_iter (qres : Nat → Bool) (evs : List Event) :
    ∀ s : RunState, (processEvents qres s evs).iter = s.iter := by
  induction evs with
  | nil => intro s; rfl
  | cons e t ih =>
      intro s
      rw [processEvents_cons, ih, dispatch_iter]

theorem processEvents_quitCalls (qres : Nat → Bool) (evs : List Event) :
    ∀ s : RunState,
      (processEvents qres s evs).quitCalls = s.quitCalls + quitCount evs := by
  induction evs with
  | nil => intro s; simp [processEvents, quitCount]
  | cons e t ih =>
      intro s
      rw [processEvents_cons, ih, dispatch_quitCalls]
      by_cases hq : e = Event.quit
      · simp [quitCount, hq]; omega
      · simp [quitCount, hq]

theorem processEvents_continuing_of_simple (qres : Nat → Bool) (evs : List Event)
    (hs : ∀ e ∈ evs, e ≠ Event.quit ∧ isEscapeDown e = false) :
    ∀ s : RunState, (processEvents qres s evs).continuing = s.continuing := by
  induction evs with
  | nil => intro s; rfl
  | cons e t ih =>
      intro s
      have he := hs e (List.mem_cons_self e t)
      have ht : ∀ x ∈ t, x ≠ Event.quit ∧ isEscapeDown x = false :=
        fun x hx => hs x (List.mem_cons_of_mem e hx)
      rw [processEvents_cons, ih ht,
        dispatch_continuing_of_simple qres s e he.1 he.2]

theorem processEvents_continuing_of_qfalse (qres : Nat → Bool) (evs : List Event)
    (hq : ∀ n, qres n = false) :
    ∀ s : RunState, s.continuing = false →
      (processEvents qres s evs).continuing = false := by
  induction evs with
  | nil => intro s hc; exact hc
  | cons e t ih =>
      intro s hc
      rw [processEvents_cons]
      exact ih _ (dispatch_continuing_of_qfalse qres s e hq hc)

theorem processEvents_continuing_of_quit_mem (qres : Nat → Bool) (evs : List Event)
    (hq : ∀ n, qres n = false) :
    ∀ s : RunState, Event.quit ∈ evs →
      (processEvents qres s evs).continuing = false := by
  induction evs with
  | nil => intro s hm; exact absurd hm (List.not_mem_nil _)
  | cons e t ih =>
      intro s hm
      by_cases he : e = Event.quit
      · subst he
        rw [processEvents_cons]
        exact processEvents_continuing_of_qfalse qres t hq _ (by simp [dispatch, hq])
      · have hmt : Event.quit ∈ t := by
          rcases List.mem_cons.mp hm with h1 | h1
          · exact absurd h1.symm he
          · exact h1
        rw [processEvents_cons]
        exact ih _ hmt

theorem processEvents_continuing_of_no_quit_false (qres : Nat → Bool)
    (evs : List Event) (hnq : ∀ e ∈ evs, e ≠ Event.quit) :
    ∀ s : RunState, s.continuing = false →
      (processEvents qres s evs).continuing = false := by
  induction evs with
  | nil => intro s hc; exact hc
  | cons e t ih =>
      intro s hc
      rw [processEvents_cons]
      exact ih (fun x hx => hnq x (List.mem_cons_of_mem e hx)) _
        (dispatch_continuing_of_ne_quit_false qres s e
          (hnq e (List.mem_cons_self e t)) hc)

theorem processEvents_continuing_of_qtrue (qres : Nat → Bool) (evs : List Event)
    (hq : ∀ n, qres n = true) (hesc : ∀ e ∈ evs, isEscapeDown e = false) :
    ∀ s : RunState, s.continuing = true →
      (processEvents qres s evs).continuing = true := by
  induction evs with
  | nil => intro s hc; exact hc
  | cons e t ih =>
      intro s hc
      rw [processEvents_cons]
      exact ih (fun x hx => hesc x (List.mem_cons_of_mem e hx)) _
        (dispatch_continuing_of_qtrue qres s e hq
          (hesc e (List.mem_cons_self e t)) hc)

theorem quitCount_zero_no_quit (evs : List Event) (h : quitCount evs = 0) :
    ∀ e ∈ evs, e ≠ Event.quit := by
  induction evs with
  | nil => intro e he; exact absurd he (List.not_mem_nil _)
  | cons a t ih =>
      intro e he
      by_cases ha : a = Event.quit
      · subst ha; simp [quitCount] at h
      · have ht : quitCount t = 0 := by
          simp [quitCount, ha] at h; exact h
        rcases List.mem_cons.mp he with h1 | h1
        · subst h1; exact ha
        · exact ih ht e h1

theorem processEvents_continuing_last_quit (qres : Nat → Bool) (evs : List Event) :
    ∀ s : RunState, 0 < quitCount evs →
      (∀ e ∈ evs, isEscapeDown e = false) →
      (processEvents qres s evs).continuing =
        qres (s.quitCalls + quitCount evs - 1) := by
  induction evs with
  | nil => intro s h0 _; simp [quitCount] at h0
  | cons e t ih =>
      intro s h0 hesc
      have hesct : ∀ x ∈ t, isEscapeDown x = false :=
        fun x hx => hesc x (List.mem_cons_of_mem e hx)
      by_cases hqt : 0 < quitCount t
      · rw [processEvents_cons, ih _ hqt hesct, dispatch_quitCalls]
        by_cases he : e = Event.quit
        · have harg : s.quitCalls + (if e = Event.quit then 1 else 0) + quitCount t - 1
              = s.quitCalls + quitCount (e :: t) - 1 := by
            simp [quitCount, he]; omega
          rw [harg]
        · have harg : s.quitCalls + (if e = Event.quit then 1 else 0) + quitCount t - 1
              = s.quitCalls + quitCount (e :: t) - 1 := by
            simp [quitCount, he]
          rw [harg]
      · have hqt0 : quitCount t = 0 := by omega
        have he : e = Event.quit := by
          by_contra hne
          simp [quitCount, hne, hqt0] at h0
        subst he
        rw [processEvents_cons]
        have hnq := quitCount_zero_no_quit t hqt0
        have hsimple : ∀ x ∈ t, x ≠ Event.quit ∧ isEscapeDown x = false :=
          fun x hx => ⟨hnq x hx, hesct x hx⟩
        rw [processEvents_continuing_of_simple qres t hsimple]
        have harg : s.quitCalls + quitCount (Event.quit :: t) - 1 = s.quitCalls := by
          simp [quitCount, hqt0]
        rw [harg]
        simp [dispatch]

theorem filterMap_callOf_length (evs : List Event)
    (h : ∀ e ∈ evs, (callOf e).isSome = true) :
    (evs.filterMap callOf).length = evs.length := by
  induction evs with
  | nil => rfl
  | cons e t ih =>
      have he := h e (List.mem_cons_self e t)
      rcases Option.isSome_iff_exists.mp he with ⟨c, hc⟩
      rw [List.filterMap_cons_some hc]
      simp [ih (fun x hx => h x (List.mem_cons_of_mem e hx))]

theorem filterMap_callOf_no_escape_down (evs : List Event) :
    (evs.filterMap callOf).filter isEscapeDownCall = [] := by
  induction evs with
  | nil => rfl
  | cons e t ih =>
      cases hco : callOf e with
      | none => rw [List.filterMap_cons_none hco]; exact ih
      | some c =>
          rw [List.filterMap_cons_some hco]
          rw [List.filter_cons_of_neg]
          · exact ih
          · simp [callOf_not_escape_down e c hco]

theorem callOf_isNone_eq_discarded (e : Event) :
    (callOf e).isNone = discarded e := by
  cases e with
  | keyDown kc km r =>
      cases kc with
      | none => rfl
      | some key => cases key <;> rfl
  | keyUp kc km r => cases kc with
      | none => rfl
      | some key => cases key <;> rfl
  | quit => rfl
  | mouseButtonDown b x y => rfl
  | mouseButtonUp b x y => rfl
  | mouseMotion st x y xr yr => rfl
  | mouseWheel x y => rfl
  | controllerButtonDown b w => rfl
  | controllerButtonUp b w => rfl
  | controllerAxisMotion a v w => rfl
  | windowFocusGained => rfl
  | windowFocusLost => rfl
  | windowResized w h => rfl
  | other => rfl

theorem callOf_isEventCallback (e : Event) (c : Call) (h : callOf e = some c) :
    isEventCallback c = true := by
  cases e with
  | quit => simp [callOf] at h; subst h; rfl
  | keyDown kc km r =>
      cases kc with
      | none => simp [callOf] at h
      | some key =>
          cases key with
          | escape => simp [callOf] at h
          | other n => simp [callOf] at h; subst h; rfl
  | keyUp kc km r =>
      cases kc with
      | none => simp [callOf] at h
      | some key => simp [callOf] at h; subst h; rfl
  | mouseButtonDown b x y => simp [callOf] at h; subst h; rfl
  | mouseButtonUp b x y => simp [callOf] at h; subst h; rfl
  | mouseMotion st x y xr yr => simp [callOf] at h; subst h; rfl
  | mouseWheel x y => simp [callOf] at h; subst h; rfl
  | controllerButtonDown b w => simp [callOf] at h; subst h; rfl
  | controllerButtonUp b w => simp [callOf] at h; subst h; rfl
  | controllerAxisMotion a v w => simp [callOf] at h; subst h; rfl
  | windowFocusGained => simp [callOf] at h; subst h; rfl
  | windowFocusLost => simp [callOf] at h; subst h; rfl
  | windowResized w h2 => simp [callOf] at h; subst h; rfl
  | other => simp [callOf] at h

theorem filterMap_callOf_count_zero (evs : List Event) (c : Call)
    (hc : isEventCallback c = false) :
    (evs.filterMap callOf).count c = 0 := by
  rw [List.count_eq_zero]
  intro hmem
  rcases List.mem_filterMap.mp hmem with ⟨e, _, hce⟩
  rw [callOf_isEventCallback e c hce] at hc
  cases hc

theorem dispatch_escape_down (qres : Nat → Bool) (s : RunState) (km : Nat) (r : Bool) :
    dispatch qres s (Event.keyDown (some Keycode.escape) km r) = ctxQuit s := by
  simp [dispatch]

/-! ### Facts about one loop iteration and the loop -/

theorem runIteration_ok (h : Handler E) (ev : Nat → List Event) (s : RunState)
    (hu : h.updateResult s.iter = Except.ok ())
    (hd : h.drawResult s.iter = Except.ok ()) :
    runIteration h ev s =
      ({ addCall (addCall (processEvents h.quitEventResult (addCall s Call.tick)
            (ev s.iter)) Call.update) Call.draw with iter := s.iter + 1 }, none) := by
  simp only [runIteration, hu, hd]

theorem runIteration_update_error (h : Handler E) (ev : Nat → List Event)
    (s : RunState) (e : E) (hu : h.updateResult s.iter = Except.error e) :
    runIteration h ev s =
      (addCall (processEvents h.quitEventResult (addCall s Call.tick) (ev s.iter))
        Call.update, some e) := by
  simp only [runIteration, hu]

theorem runIteration_draw_error (h : Handler E) (ev : Nat → List Event)
    (s : RunState) (e : E) (hu : h.updateResult s.iter = Except.ok ())
    (hd : h.drawResult s.iter = Except.error e) :
    runIteration h ev s =
      (addCall (addCall (processEvents h.quitEventResult (addCall s Call.tick)
          (ev s.iter)) Call.update) Call.draw, some e) := by
  simp only [runIteration, hu, hd]

theorem runLoop_stop (h : Handler E) (ev : Nat → List Event) (fuel : Nat)
    (s : RunState) (hc : s.continuing = false) :
    runLoop h ev fuel s = some (s, none) := by
  cases fuel <;> simp [runLoop, hc]

theorem runLoop_step_ok (h : Handler E) (ev : Nat → List Event) (fuel : Nat)
    (s : RunState) (hc : s.continuing = true)
    (hit : (runIteration h ev s).2 = none) :
    runLoop h ev (fuel + 1) s = runLoop h ev fuel (runIteration h ev s).1 := by
  have hpair : runIteration h ev s = ((runIteration h ev s).1, (runIteration h ev s).2) := rfl
  rw [hit] at hpair
  rw [runLoop, hc, hpair]
  simp

theorem runLoop_step_error (h : Handler E) (ev : Nat → List Event) (fuel : Nat)
    (s : RunState) (e : E) (hc : s.continuing = true)
    (hit : (runIteration h ev s).2 = some e) :
    runLoop h ev (fuel + 1) s = some ((runIteration h ev s).1, some e) := by
  have hpair : runIteration h ev s = ((runIteration h ev s).1, (runIteration h ev s).2) := rfl
  rw [hit] at hpair
  rw [runLoop, hc, hpair]
  simp

theorem run_of_runLoop_ok (h : Handler E) (ev : Nat → List Event) (fuel : Nat)
    (s : RunState) (hl : runLoop h ev fuel initState = some (s, none)) :
    run (Except.ok ()) h ev fuel = some (s.trace, Except.ok ()) := by
  simp only [run, hl]

theorem run_of_runLoop_error (h : Handler E) (ev : Nat → List Event) (fuel : Nat)
    (s : RunState) (e : E) (hl : runLoop h ev fuel initState = some (s, some e)) :
    run (Except.ok ()) h ev fuel = some (s.trace, Except.error e) := by
  simp only [run, hl]

/-! ### Claim theorems -/

/-- C9: if acquiring the event pump (`ctx.sdl_context.event_pump()?`) fails,
`run` returns that exact error immediately with an empty trace — the loop
never starts: no clock tick, no event dispatch, no `update` and no `draw`
call is performed. -/
theorem pump_failure_no_loop (E : Type) (h : Handler E) (ev : Nat → List Event)
    (fuel : Nat) (e : E) :
    run (Except.error e) h ev fuel = some ([], Except.error e) := rfl

/-- C3: when the drain of the current iteration contains a `Quit` event and
the handler's `quit_event` always returns false, the loop still completes
that iteration's `update` and `draw` calls (they appear at the end of the
trace) and then terminates normally; started from the initial state, `run`
returns success. -/
theorem quit_false_completes_then_terminates (h : Handler E)
    (ev : Nat → List Event) (s : RunState) (fuel : Nat)
    (hc : s.continuing = true)
    (hq : Event.quit ∈ ev s.iter)
    (hres : ∀ n, h.quitEventResult n = false)
    (hu : h.updateResult s.iter = Except.ok ())
    (hd : h.drawResult s.iter = Except.ok ()) :
    runLoop h ev (fuel + 1) s = some ((runIteration h ev s).1, none)
    ∧ (runIteration h ev s).1.trace
        = s.trace ++ [Call.tick] ++ (ev s.iter).filterMap callOf
            ++ [Call.update, Call.draw]
    ∧ (s = initState →
        run (Except.ok ()) h ev (fuel + 1)
          = some ((runIteration h ev s).1.trace, Except.ok ())) := by
  have hiter := runIteration_ok h ev s hu hd
  have hfalse : (runIteration h ev s).1.continuing = false := by
    rw [hiter]
    exact processEvents_continuing_of_quit_mem h.quitEventResult (ev s.iter) hres _ hq
  have hit2 : (runIteration h ev s).2 = none := by rw [hiter]
  have hloop : runLoop h ev (fuel + 1) s = some ((runIteration h ev s).1, none) := by
    rw [runLoop_step_ok h ev fuel s hc hit2, runLoop_stop h ev fuel _ hfalse]
  refine ⟨hloop, ?_, ?_⟩
  · rw [hiter]
    show (addCall (addCall _ Call.update) Call.draw).trace = _
    simp [addCall, processEvents_trace]
  · intro hs
    subst hs
    exact run_of_runLoop_ok h ev (fuel + 1) _ hloop

/-- C4: when the drain of the current iteration contains a `Quit` event,
the handler's `quit_event` always returns true and the drain carries no
escape `KeyDown`, the iteration does not terminate the loop: the
continuation flag is still true afterwards, the iteration counter advances,
and the loop proceeds to the next iteration. -/
theorem quit_true_continues (h : Handler E) (ev : Nat → List Event)
    (s : RunState) (fuel : Nat)
    (hc : s.continuing = true)
    (hq : Event.quit ∈ ev s.iter)
    (hres : ∀ n, h.quitEventResult n = true)
    (hesc : ∀ e ∈ ev s.iter, isEscapeDown e = false)
    (hu : h.updateResult s.iter = Except.ok ())
    (hd : h.drawResult s.iter = Except.ok ()) :
    (runIteration h ev s).2 = none
    ∧ (runIteration h ev s).1.continuing = true
    ∧ (runIteration h ev s).1.iter = s.iter + 1
    ∧ runLoop h ev (fuel + 1) s = runLoop h ev fuel (runIteration h ev s).1 := by
  have hiter := runIteration_ok h ev s hu hd
  have hit2 : (runIteration h ev s).2 = none := by rw [hiter]
  refine ⟨hit2, ?_, ?_, ?_⟩
  · rw [hiter]
    exact processEvents_continuing_of_qtrue h.quitEventResult (ev s.iter) hres hesc _ hc
  · rw [hiter]
  · exact runLoop_step_ok h ev fuel s hc hit2

/-- C5: if `update` returns an error on the current iteration, `draw` is
not called on that iteration (the count of `draw` calls in the trace does
not change and the trace ends right after `update`), and the loop — and,
from the initial state, `run` — returns exactly that error. -/
theorem update_error_skips_draw (h : Handler E) (ev : Nat → List Event)
    (s : RunState) (fuel : Nat) (e : E)
    (hc : s.continuing = true)
    (hu : h.updateResult s.iter = Except.error e) :
    runLoop h ev (fuel + 1) s = some ((runIteration h ev s).1, some e)
    ∧ (runIteration h ev s).1.trace
        = s.trace ++ [Call.tick] ++ (ev s.iter).filterMap callOf ++ [Call.update]
    ∧ (runIteration h ev s).1.trace.count Call.draw = s.trace.count Call.draw
    ∧ (s = initState →
        run (Except.ok ()) h ev (fuel + 1)
          = some ((runIteration h ev s).1.trace, Except.error e)) := by
  have hiter := runIteration_update_error h ev s e hu
  have hit2 : (runIteration h ev s).2 = some e := by rw [hiter]
  have hloop := runLoop_step_error h ev fuel s e hc hit2
  have htr : (runIteration h ev s).1.trace
      = s.trace ++ [Call.tick] ++ (ev s.iter).filterMap callOf ++ [Call.update] := by
    rw [hiter]
    show (addCall _ Call.update).trace = _
    simp [addCall, processEvents_trace]
  refine ⟨hloop, htr, ?_, ?_⟩
  · rw [htr]
    simp [List.count_append, filterMap_callOf_count_zero (ev s.iter) Call.draw rfl]
  · intro hs
    subst hs
    exact run_of_runLoop_error h ev (fuel + 1) _ e hloop

/-- C6: if `draw` returns an error on the current iteration while `update`
succeeded, the loop — and, from the initial state, `run` — returns exactly
that error, and the trace shows `update` completed before `draw` was
called. -/
theorem draw_error_after_update (h : Handler E) (ev : Nat → List Event)
    (s : RunState) (fuel : Nat) (e : E)
    (hc : s.continuing = true)
    (hu : h.updateResult s.iter = Except.ok ())
    (hd : h.drawResult s.iter = Except.error e) :
    runLoop h ev (fuel + 1) s = some ((runIteration h ev s).1, some e)
    ∧ (runIteration h ev s).1.trace
        = s.trace ++ [Call.tick] ++ (ev s.iter).filterMap callOf
            ++ [Call.update, Call.draw]
    ∧ (s = initState →
        run (Except.ok ()) h ev (fuel + 1)
          = some ((runIteration h ev s).1.trace, Except.error e)) := by
  have hiter := runIteration_draw_error h ev s e hu hd
  have hit2 : (runIteration h ev s).2 = some e := by rw [hiter]
  have hloop := runLoop_step_error h ev fuel s e hc hit2
  refine ⟨hloop, ?_, ?_⟩
  · rw [hiter]
    show (addCall (addCall _ Call.update) Call.draw).trace = _
    simp [addCall, processEvents_trace]
  · intro hs
    subst hs
    exact run_of_runLoop_error h ev (fuel + 1) _ e hloop

/-- C10: when a single drain contains at least one `Quit` event and no
escape `KeyDown`, the continuation flag after the drain equals the
`quit_event` result of the last `Quit` processed — a later `Quit` whose
`quit_event` returns true overrides an earlier `Quit`'s false in the same
drain. -/
theorem last_quit_wins (qres : Nat → Bool) (s : RunState) (evs : List Event)
    (hq : 0 < quitCount evs)
    (hesc : ∀ e ∈ evs, isEscapeDown e = false) :
    (processEvents qres s evs).continuing
      = qres (s.quitCalls + quitCount evs - 1) :=
  processEvents_continuing_last_quit qres evs s hq hesc

/-- C1 (amended): a `KeyDown` carrying the escape sentinel is never
forwarded to `key_down_event` (the trace gains no escape `key_down_event`
call) and clears the continuation flag without calling `quit_event`; when
no `Quit` event follows it in the same drain, the loop completes the
iteration's `update`/`draw` and terminates, with `run` (from the initial
state) returning success.  The escape signal itself is `ctxQuit`, modelled
from the spec. -/
theorem escape_clears_flag_and_terminates (h : Handler E) (ev : Nat → List Event)
    (s : RunState) (fuel : Nat) (pre post : List Event) (km : Nat) (r : Bool)
    (hc : s.continuing = true)
    (hdrain : ev s.iter = pre ++ Event.keyDown (some Keycode.escape) km r :: post)
    (hpost : ∀ e ∈ post, e ≠ Event.quit)
    (hu : h.updateResult s.iter = Except.ok ())
    (hd : h.drawResult s.iter = Except.ok ()) :
    (runIteration h ev s).1.trace.filter isEscapeDownCall
        = s.trace.filter isEscapeDownCall
    ∧ (runIteration h ev s).1.continuing = false
    ∧ runLoop h ev (fuel + 1) s = some ((runIteration h ev s).1, none)
    ∧ (s = initState →
        run (Except.ok ()) h ev (fuel + 1)
          = some ((runIteration h ev s).1.trace, Except.ok ())) := by
  have hiter := runIteration_ok h ev s hu hd
  have happ : ∀ s0 : RunState,
      processEvents h.quitEventResult s0 (ev s.iter)
        = processEvents h.quitEventResult
            (dispatch h.quitEventResult (processEvents h.quitEventResult s0 pre)
              (Event.keyDown (some Keycode.escape) km r)) post := by
    intro s0
    rw [hdrain]
    simp [processEvents, List.foldl_append]
  have hfalse : (runIteration h ev s).1.continuing = false := by
    rw [hiter]
    show (processEvents h.quitEventResult (addCall s Call.tick) (ev s.iter)).continuing = false
    rw [happ, dispatch_escape_down]
    exact processEvents_continuing_of_no_quit_false h.quitEventResult post hpost _ rfl
  have hit2 : (runIteration h ev s).2 = none := by rw [hiter]
  have hloop : runLoop h ev (fuel + 1) s = some ((runIteration h ev s).1, none) := by
    rw [runLoop_step_ok h ev fuel s hc hit2, runLoop_stop h ev fuel _ hfalse]
  have htr : (runIteration h ev s).1.trace
      = s.trace ++ [Call.tick] ++ (ev s.iter).filterMap callOf
          ++ [Call.update, Call.draw] := by
    rw [hiter]
    show (addCall (addCall _ Call.update) Call.draw).trace = _
    simp [addCall, processEvents_trace]
  refine ⟨?_, hfalse, hloop, ?_⟩
  · rw [htr]
    simp [List.filter_append, filterMap_callOf_no_escape_down, isEscapeDownCall]
  · intro hs
    subst hs
    exact run_of_runLoop_ok h ev (fuel + 1) _ hloop

/-- C2 (amended): for a drain of N raw events each of which produces a
handler callback — no `Quit`, and hence no escape `KeyDown`, no key event
without a keycode and no catch-all event — one loop iteration performs
exactly N callback dispatches in source order, followed by exactly one
`update` and then one `draw` call, with the continuation flag unchanged. -/
theorem simple_drain_exact_dispatches (h : Handler E) (ev : Nat → List Event)
    (s : RunState)
    (hev : ∀ e ∈ ev s.iter, e ≠ Event.quit ∧ (callOf e).isSome = true)
    (hu : h.updateResult s.iter = Except.ok ())
    (hd : h.drawResult s.iter = Except.ok ()) :
    (runIteration h ev s).1.trace
        = s.trace ++ [Call.tick] ++ (ev s.iter).filterMap callOf
            ++ [Call.update, Call.draw]
    ∧ ((ev s.iter).filterMap callOf).length = (ev s.iter).length
    ∧ (runIteration h ev s).1.continuing = s.continuing
    ∧ (runIteration h ev s).2 = none := by
  have hiter := runIteration_ok h ev s hu hd
  refine ⟨?_, ?_, ?_, ?_⟩
  · rw [hiter]
    show (addCall (addCall _ Call.update) Call.draw).trace = _
    simp [addCall, processEvents_trace]
  · exact filterMap_callOf_length (ev s.iter) (fun e he => (hev e he).2)
  · rw [hiter]
    exact processEvents_continuing_of_simple h.quitEventResult (ev s.iter)
      (fun e he => ⟨(hev e he).1, callOf_isSome_not_escape e (hev e he).2⟩) _
  · rw [hiter]

/-- C7 (amended): within one drain, each event is translated to at most one
callback, appended to the trace in source order, exactly as `callOf` reads
the translator off; `callOf` yields no callback exactly for the discarded
events — the catch-all `Other` bucket, key events with no keycode, and the
escape `KeyDown` special case. -/
theorem one_callback_per_event (qres : Nat → Bool) (s : RunState)
    (evs : List Event) :
    (processEvents qres s evs).trace = s.trace ++ evs.filterMap callOf
    ∧ ∀ e : Event, (callOf e).isNone = discarded e :=
  ⟨processEvents_trace qres evs s, callOf_isNone_eq_discarded⟩

/-- C8 (amended): for a `WindowResized` event whose reported width and
height are nonnegative (all real window sizes; the full i32 range wraps
through the `as u32` cast), `resize_event` receives exactly the reported
values. -/
theorem resize_exact_dimensions (qres : Nat → Bool) (s : RunState) (w h : Int)
    (h0w : 0 ≤ w) (hw : w < 2 ^ 31) (h0h : 0 ≤ h) (hh : h < 2 ^ 31) :
    (processEvents qres s [Event.windowResized w h]).trace
      = s.trace ++ [Call.resize_event w.toNat h.toNat]
    ∧ ((w.toNat : Int) = w ∧ (h.toNat : Int) = h) := by
  have hpow : (2 : Int) ^ 31 < 2 ^ 32 := by norm_num
  have hu32 : ∀ z : Int, 0 ≤ z → z < 2 ^ 31 → u32ofInt z = z.toNat := by
    intro z h0 hlt
    unfold u32ofInt
    rw [Int.emod_eq_of_lt h0 (hlt.trans hpow)]
  constructor
  · show (dispatch qres s (Event.windowResized w h)).trace = _
    simp [dispatch, addCall, hu32 w h0w hw, hu32 h h0h hh]
  · exact ⟨Int.toNat_of_nonneg h0w, Int.toNat_of_nonneg h0h⟩

/-! ### Concrete handlers for witnesses and counterexamples -/

/-- A handler whose `quit_event` always returns false (the default) and
whose `update` and `draw` always succeed. -/
def okHandler : Handler Unit :=
  ⟨fun _ => false, fun _ => Except.ok (), fun _ => Except.ok ()⟩

/-- A handler whose `quit_event` always returns true (vetoing quits) and
whose `update` and `draw` always succeed. -/
def vetoHandler : Handler Unit :=
  ⟨fun _ => true, fun _ => Except.ok (), fun _ => Except.ok ()⟩

/-- A handler whose `update` always fails with error 7. -/
def failUpdateHandler : Handler Nat :=
  ⟨fun _ => false, fun _ => Except.error 7, fun _ => Except.ok ()⟩

/-- A handler whose `update` succeeds and whose `draw` fails with error 9. -/
def failDrawHandler : Handler Nat :=
  ⟨fun _ => false, fun _ => Except.ok (), fun _ => Except.error 9⟩

/-! ### Counterexamples to the claims as originally stated -/

/-- C1 counterexample: a drain `[KeyDown(escape), Quit]` with a handler
whose `quit_event` returns true does not terminate the run.  After the
drain the continuation flag is back to true (the later `Quit` overrode the
escape), and `run` with fuel 3 is still looping (`none`), so the escape
`KeyDown` did not result in loop termination with a success return. -/
theorem escape_terminates_counterexample :
    run (Except.ok ()) vetoHandler
        (fun _ => [Event.keyDown (some Keycode.escape) 0 false, Event.quit]) 3 = none
    ∧ (processEvents (fun _ => true) (addCall initState Call.tick)
        [Event.keyDown (some Keycode.escape) 0 false, Event.quit]).continuing
          = true := ⟨rfl, rfl⟩

/-- C2 counterexample: the drain `[Other]` has N = 1 raw events, contains
no `Quit` and no escape `KeyDown`, yet the iteration performs zero handler
callback dispatches (the trace is only tick/update/draw), not exactly
N = 1. -/
theorem simple_drain_counterexample :
    ((runIteration okHandler (fun _ => [Event.other]) initState).1.trace.filter
        isEventCallback).length = 0
    ∧ [Event.other].length = 1
    ∧ Event.other ≠ Event.quit
    ∧ isEscapeDown Event.other = false :=
  ⟨rfl, rfl, by decide, rfl⟩

/-- C7 counterexample: a `KeyDown` carrying the escape sentinel is not the
catch-all `Other` bucket, yet it is dropped: its dispatch invokes no
handler callback at all (the trace stays empty), so not every non-`Other`
event maps to exactly one callback. -/
theorem one_callback_counterexample :
    (processEvents (fun _ => false) initState
        [Event.keyDown (some Keycode.escape) 0 false]).trace = []
    ∧ Event.keyDown (some Keycode.escape) 0 false ≠ Event.other :=
  ⟨rfl, by decide⟩

/-- C8 counterexample: a `WindowResized` event reporting width -1 delivers
4294967295 (the `as u32` wrap of -1) to `resize_event`, not the reported
value unmodified. -/
theorem resize_counterexample :
    (processEvents (fun _ => false) initState [Event.windowResized (-1) 480]).trace
      = [Call.resize_event 4294967295 480]
    ∧ ((-1 : Int) ≠ (4294967295 : Int)) :=
  ⟨rfl, by decide⟩

/-! ### Witnesses -/

/-- Witness for C1 (amended) at the drain `[KeyDown(escape)]` with the
all-defaults handler and fuel 1. -/
theorem escape_clears_flag_witness :
    (runIteration okHandler (fun _ => [Event.keyDown (some Keycode.escape) 0 false])
        initState).1.trace.filter isEscapeDownCall
      = initState.trace.filter isEscapeDownCall
    ∧ (runIteration okHandler (fun _ => [Event.keyDown (some Keycode.escape) 0 false])
        initState).1.continuing = false
    ∧ runLoop okHandler (fun _ => [Event.keyDown (some Keycode.escape) 0 false]) 1
        initState
      = some ((runIteration okHandler
          (fun _ => [Event.keyDown (some Keycode.escape) 0 false]) initState).1, none)
    ∧ (initState = initState →
        run (Except.ok ()) okHandler
            (fun _ => [Event.keyDown (some Keycode.escape) 0 false]) 1
          = some ((runIteration okHandler
              (fun _ => [Event.keyDown (some Keycode.escape) 0 false])
                initState).1.trace, Except.ok ())) :=
  escape_clears_flag_and_terminates okHandler
    (fun _ => [Event.keyDown (some Keycode.escape) 0 false]) initState 0 [] [] 0 false
    rfl rfl (by decide) rfl rfl

/-- Witness for C2 (amended) at the two-event drain
`[MouseWheel(1,2), WindowFocusGained]`. -/
theorem simple_drain_witness :
    (runIteration okHandler (fun _ => [Event.mouseWheel 1 2, Event.windowFocusGained])
        initState).1.trace
      = initState.trace ++ [Call.tick]
          ++ ([Event.mouseWheel 1 2, Event.windowFocusGained].filterMap callOf)
          ++ [Call.update, Call.draw]
    ∧ ([Event.mouseWheel 1 2, Event.windowFocusGained].filterMap callOf).length
        = [Event.mouseWheel 1 2, Event.windowFocusGained].length
    ∧ (runIteration okHandler (fun _ => [Event.mouseWheel 1 2, Event.windowFocusGained])
        initState).1.continuing = initState.continuing
    ∧ (runIteration okHandler (fun _ => [Event.mouseWheel 1 2, Event.windowFocusGained])
        initState).2 = none :=
  simple_drain_exact_dispatches okHandler
    (fun _ => [Event.mouseWheel 1 2, Event.windowFocusGained]) initState
    (by decide) rfl rfl

/-- Witness for C3 at the drain `[Quit]` with the all-defaults handler
(`quit_event` returns false) and fuel 1. -/
theorem quit_false_witness :
    runLoop okHandler (fun _ => [Event.quit]) 1 initState
      = some ((runIteration okHandler (fun _ => [Event.quit]) initState).1, none)
    ∧ (runIteration okHandler (fun _ => [Event.quit]) initState).1.trace
        = initState.trace ++ [Call.tick] ++ ([Event.quit].filterMap callOf)
            ++ [Call.update, Call.draw]
    ∧ (initState = initState →
        run (Except.ok ()) okHandler (fun _ => [Event.quit]) 1
          = some ((runIteration okHandler (fun _ => [Event.quit]) initState).1.trace,
              Except.ok ())) :=
  quit_false_completes_then_terminates okHandler (fun _ => [Event.quit]) initState 0
    rfl (by decide) (fun n => rfl) rfl rfl

/-- Witness for C4 at the drain `[Quit]` with a handler whose `quit_event`
returns true. -/
theorem quit_true_witness :
    (runIteration vetoHandler (fun _ => [Event.quit]) initState).2 = none
    ∧ (runIteration vetoHandler (fun _ => [Event.quit]) initState).1.continuing = true
    ∧ (runIteration vetoHandler (fun _ => [Event.quit]) initState).1.iter
        = initState.iter + 1
    ∧ runLoop vetoHandler (fun _ => [Event.quit]) 1 initState
        = runLoop vetoHandler (fun _ => [Event.quit]) 0
            ((runIteration vetoHandler (fun _ => [Event.quit]) initState).1) :=
  quit_true_continues vetoHandler (fun _ => [Event.quit]) initState 0 rfl (by decide)
    (fun n => rfl) (by decide) rfl rfl

/-- Witness for C5 with a handler whose `update` fails with error 7 on an
empty drain. -/
theorem update_error_witness :
    runLoop failUpdateHandler (fun _ => []) 1 initState
      = some ((runIteration failUpdateHandler (fun _ => []) initState).1, some 7)
    ∧ (runIteration failUpdateHandler (fun _ => []) initState).1.trace
        = initState.trace ++ [Call.tick] ++ (([] : List Event).filterMap callOf)
            ++ [Call.update]
    ∧ (runIteration failUpdateHandler (fun _ => []) initState).1.trace.count Call.draw
        = initState.trace.count Call.draw
    ∧ (initState = initState →
        run (Except.ok ()) failUpdateHandler (fun _ => []) 1
          = some ((runIteration failUpdateHandler (fun _ => []) initState).1.trace,
              Except.error 7)) :=
  update_error_skips_draw failUpdateHandler (fun _ => []) initState 0 7 rfl rfl

/-- Witness for C6 with a handler whose `draw` fails with error 9 on an
empty drain. -/
theorem draw_error_witness :
    runLoop failDrawHandler (fun _ => []) 1 initState
      = some ((runIteration failDrawHandler (fun _ => []) initState).1, some 9)
    ∧ (runIteration failDrawHandler (fun _ => []) initState).1.trace
        = initState.trace ++ [Call.tick] ++ (([] : List Event).filterMap callOf)
            ++ [Call.update, Call.draw]
    ∧ (initState = initState →
        run (Except.ok ()) failDrawHandler (fun _ => []) 1
          = some ((runIteration failDrawHandler (fun _ => []) initState).1.trace,
              Except.error 9)) :=
  draw_error_after_update failDrawHandler (fun _ => []) initState 0 9 rfl rfl rfl

/-- Witness for C8 (amended) at a 640 by 480 resize. -/
theorem resize_witness :
    (processEvents (fun _ => false) initState [Event.windowResized 640 480]).trace
      = initState.trace ++ [Call.resize_event (640 : Int).toNat (480 : Int).toNat]
    ∧ (((640 : Int).toNat : Int) = 640 ∧ ((480 : Int).toNat : Int) = 480) :=
  resize_exact_dimensions (fun _ => false) initState 640 480 (by decide) (by decide)
    (by decide) (by decide)

/-- Witness for C10 at the drain `[Quit, Quit]` where the first `quit_event`
call returns false and the second returns true: the flag after the drain is
the second (last) result. -/
theorem last_quit_wins_witness :
    (processEvents (fun n => decide (n = 1)) initState
        [Event.quit, Event.quit]).continuing
      = (fun n => decide (n = 1))
          (initState.quitCalls + quitCount [Event.quit, Event.quit] - 1) :=
  last_quit_wins (fun n => decide (n = 1)) initState [Event.quit, Event.quit]
    (by decide) (by decide)

end Ggez
